import Mathlib

/-!
Verification of the inference-orchestration subsystem of the
cipher-coder repository (a chat-driven AI code-generation tool).

The definitions below are shallow embeddings of the TypeScript source:

* `src/ai/apiConnector/apiErrorHandler.ts` — `APIErrorHandler.categorizeError`,
  `APIErrorHandler.calculateBackoff`, `APIErrorHandler.retry` and the
  rate-limit delay override inside the retry loop;
* `src/ai/localLLM/localInference.ts` — `LocalInference.runInference` and
  `LocalInference.runChatInference` with the concurrency cap;
* `src/ai/chat/chatService.ts` — `ChatService.processMessage` and
  `ChatService.extractCodeFromMessage`;
* `src/ai/generator/codeGenerator.ts` — `CodeGenerator.generateCode` and
  `CodeGenerator.determineSource`;
* `src/ai/chat/chatController.ts` — the session store (`createSession`,
  `addUserMessage`, `updateSession`, `deleteSession`, `clearSessionHistory`,
  `setActiveSession`, `saveSessions`, `loadSessions`);
* `src/ai/generator/responsePostProcessor.ts` —
  `ResponsePostProcessor.extractCodeFromResponse`;
* `src/ai/localLLM/localModelLoader.ts` — `LocalModelLoader.loadModel`.

Asynchronous effects (network calls, the mocked model invocation, random
jitter, clocks, uuid generation) are modelled as explicit oracle arguments;
JavaScript truthiness of optional strings is modelled by the test
`Option.getD o "" != ""`; thrown exceptions are modelled with `Except`.
-/

namespace Cipher

/-- Finish reasons of `FinishReasonSchema` in `src/ai/models/llmResponse.ts`. -/
inductive FinishReason
  | stop
  | length
  | content_filter
  | timeout
  | error
deriving DecidableEq, Repr

/-- Message roles used throughout the chat data model. -/
inductive Role
  | user
  | assistant
  | system
deriving DecidableEq, Repr

/-- Source types of a response: local model or remote API. -/
inductive SourceType
  | local
  | api
deriving DecidableEq, Repr

/-- Error categories of `APIErrorTypeSchema` in `apiErrorHandler.ts`. -/
inductive APIErrorType
  | network
  | timeout
  | rate_limit
  | authentication
  | bad_request
  | server
  | unknown
deriving DecidableEq, Repr

/-- The transport-level response attached to an Axios error: its HTTP status
and the numeric value of the `retry-after` header when present (absence or a
non-numeric/empty header is `none`). -/
structure RespInfo where
  status : Nat
  retryAfter : Option Nat
deriving DecidableEq, Repr

/-- Input to error classification: either an Axios transport error carrying a
message, an optional error `code` string (for example `ECONNABORTED`), and an
optional underlying response, or an arbitrary non-Axios error carrying only a
message. -/
inductive ErrorInput
  | axiosErr (message : String) (code : Option String) (response : Option RespInfo)
  | otherErr (message : String)
deriving DecidableEq, Repr

/-- The relevant fields of `APIErrorDetails`: category, human-readable
message, and retryability verdict (the `status` and `errorData` fields carry
no logic and are omitted). -/
structure APIErrorDetails where
  type : APIErrorType
  message : String
  retryable : Bool
deriving DecidableEq, Repr

/-- Embedding of `APIErrorHandler.categorizeError` (apiErrorHandler.ts,
lines 80-146): classifies an error into a category and a retryability
verdict, following the exact branch order of the source. -/
def categorizeError : ErrorInput → APIErrorDetails
  | .axiosErr msg code response =>
    match response with
    | none =>
      { type := .network, message := "Network error occurred", retryable := true }
    | some r =>
      if r.status = 408 ∨ code = some "ECONNABORTED" then
        { type := .timeout, message := "Request timed out", retryable := true }
      else if r.status = 429 then
        { type := .rate_limit, message := "Rate limit exceeded", retryable := true }
      else if r.status = 401 ∨ r.status = 403 then
        { type := .authentication, message := "Authentication failed", retryable := false }
      else if 400 ≤ r.status ∧ r.status < 500 then
        { type := .bad_request, message := "Bad request: " ++ msg, retryable := false }
      else if 500 ≤ r.status then
        { type := .server, message := "Server error: " ++ msg, retryable := true }
      else
        { type := .unknown, message := msg, retryable := false }
  | .otherErr msg =>
    { type := .unknown, message := msg, retryable := false }

/-- The classification mapping exactly as the specification words it
(spec section 4.1 / claim C3), for comparison with `categorizeError`:
no transport response means `network`; timeout/aborted means `timeout`;
429 means `rate_limit`; 401/403 means `authentication`; every other 4xx
status means `bad_request`; every 5xx status (literally 500-599) means
`server`; anything unrecognized means `unknown`. Returns the category
together with the claimed retryability. -/
def claimedVerdict : ErrorInput → APIErrorType × Bool
  | .axiosErr _ code response =>
    match response with
    | none => (.network, true)
    | some r =>
      if r.status = 408 ∨ code = some "ECONNABORTED" then (.timeout, true)
      else if r.status = 429 then (.rate_limit, true)
      else if r.status = 401 ∨ r.status = 403 then (.authentication, false)
      else if 400 ≤ r.status ∧ r.status < 500 then (.bad_request, false)
      else if 500 ≤ r.status ∧ r.status < 600 then (.server, true)
      else (.unknown, false)
  | .otherErr _ => (.unknown, false)

/-- Constant `MAX_RETRIES` of `APIErrorHandler`. -/
def MAX_RETRIES : Nat := 3

/-- Constant `BASE_DELAY` of `APIErrorHandler`, in milliseconds. -/
def BASE_DELAY : ℚ := 1000

/-- Constant `MAX_DELAY` of `APIErrorHandler`, in milliseconds. -/
def MAX_DELAY : ℚ := 10000

/-- Embedding of `APIErrorHandler.calculateBackoff` (apiErrorHandler.ts,
lines 153-165). The call to `Math.random()` is modelled by the parameter
`r`, a rational in `[0, 1)`. -/
def calculateBackoff (attempt : Nat) (r : ℚ) : ℚ :=
  let exponentialDelay := min MAX_DELAY (BASE_DELAY * 2 ^ attempt)
  let jitter := r * (6 / 10) - 3 / 10
  let delay := exponentialDelay * (1 + jitter)
  min MAX_DELAY (max BASE_DELAY delay)

/-- Embedding of the delay selection inside `APIErrorHandler.retry`
(apiErrorHandler.ts, lines 204-211): start from the computed backoff and,
for a rate-limit classification on an Axios error with a response carrying
a `retry-after` header, replace it by the header value times 1000 — with no
clamping of any kind. -/
def chooseRetryDelay (e : ErrorInput) (attempt : Nat) (r : ℚ) : ℚ :=
  let delayMs := calculateBackoff attempt r
  match e with
  | .axiosErr _ _ (some resp) =>
    if (categorizeError e).type = .rate_limit then
      match resp.retryAfter with
      | some n => (n : ℚ) * 1000
      | none => delayMs
    else delayMs
  | _ => delayMs

/-- Embedding of the loop of `APIErrorHandler.retry` (apiErrorHandler.ts,
lines 183-222). The operation `fn` is modelled as a deterministic oracle
from the attempt index to its outcome. Returns the final outcome (success
value, or the wrapped error message thrown after the loop) together with
the number of attempts that were performed. The backoff sleep has no
observable effect on the result and is not represented here. -/
def retryAux (fn : Nat → Except ErrorInput α) (maxRetries : Nat) (attempt : Nat) :
    Except String α × Nat :=
  match fn attempt with
  | .ok v => (.ok v, attempt + 1)
  | .error e =>
    let details := categorizeError e
    if details.retryable = false ∨ maxRetries ≤ attempt then
      (.error ("API request failed after " ++ toString (maxRetries + 1) ++
        " attempts: " ++ details.message), attempt + 1)
    else
      retryAux fn maxRetries (attempt + 1)
termination_by maxRetries - attempt
decreasing_by simp_all; omega

/-- Embedding of `APIErrorHandler.retry`: runs the loop from attempt 0. -/
def retry (fn : Nat → Except ErrorInput α) (maxRetries : Nat := MAX_RETRIES) :
    Except String α × Nat :=
  retryAux fn maxRetries 0

/-! ### Local inference and its concurrency cap (localInference.ts) -/

/-- Constant `MAX_CONCURRENT_INFERENCES` of `LocalInference`. -/
def MAX_CONCURRENT_INFERENCES : Nat := 4

/-- The busy rejection message of `LocalInference`. -/
def busyMessage : String :=
  "Maximum concurrent inferences limit reached. Please try again later."

/-- The fields of a local `LLMResponse` that carry logic: generated text,
optional error string, finish reason, request id and latency (the advisory
`model`, `tokenUsage` and `timestamp` metadata are omitted). -/
structure LLMResponse where
  generatedText : String
  error : Option String
  finishReason : FinishReason
  requestId : String
  latency : Nat
deriving DecidableEq, Repr

/-- A message of a conversation history (`ChatMessage` of llmRequest.ts). -/
structure ConvMessage where
  role : Role
  content : String
  timestamp : Nat
deriving DecidableEq, Repr

/-- The fields of a `ChatLLMResponse` that carry logic (the advisory
`model` and `tokenUsage` metadata are omitted; `latency` is optional
because the error response built by `ChatService.processMessage` has no
latency field). -/
structure ChatLLMResponse where
  generatedText : String
  error : Option String
  finishReason : FinishReason
  timestamp : Nat
  requestId : String
  latency : Option Nat
  updatedConversation : List ConvMessage
  sourceType : SourceType
deriving DecidableEq, Repr

/-- Embedding of `LocalInference.runInference` (localInference.ts, lines
743-822), viewed from its effect on the `activeInferences` counter. The
model execution inside the `try` block is the oracle `body`: `.ok text` is
a successful generation and `.error e` any thrown failure (model loading,
config loading, or inference). Returns the response together with the
counter after the call: a capacity rejection leaves the counter untouched,
an admitted call increments it and the `finally` block decrements it
exactly once on both the success and the failure path. -/
def runInference (active : Nat) (requestId : String) (body : Except String String)
    (latency : Nat) : LLMResponse × Nat :=
  if MAX_CONCURRENT_INFERENCES ≤ active then
    ({ generatedText := "", error := some busyMessage, finishReason := .error,
       requestId := requestId, latency := 0 }, active)
  else
    let active1 := active + 1
    match body with
    | .ok txt =>
      ({ generatedText := txt, error := none, finishReason := .stop,
         requestId := requestId, latency := latency }, active1 - 1)
    | .error e =>
      ({ generatedText := "", error := some ("Local inference failed: " ++ e),
         finishReason := .error, requestId := requestId, latency := latency },
       active1 - 1)

/-- Embedding of `LocalInference.runChatInference` (localInference.ts, lines
829-924), analogous to `runInference`; on success the assistant message is
appended to the conversation, on rejection or failure the conversation is
returned unchanged. -/
def runChatInference (active : Nat) (requestId : String)
    (history : List ConvMessage) (body : Except String String)
    (latency now : Nat) : ChatLLMResponse × Nat :=
  if MAX_CONCURRENT_INFERENCES ≤ active then
    ({ generatedText := "", error := some busyMessage, finishReason := .error,
       timestamp := now, requestId := requestId, latency := some 0,
       updatedConversation := history, sourceType := .local }, active)
  else
    let active1 := active + 1
    match body with
    | .ok txt =>
      ({ generatedText := txt, error := none, finishReason := .stop,
         timestamp := now, requestId := requestId, latency := some latency,
         updatedConversation :=
           history ++ [{ role := .assistant, content := txt, timestamp := now }],
         sourceType := .local }, active1 - 1)
    | .error e =>
      ({ generatedText := "",
         error := some ("Local chat inference failed: " ++ e),
         finishReason := .error, timestamp := now, requestId := requestId,
         latency := some latency, updatedConversation := history,
         sourceType := .local }, active1 - 1)

/-- One interleaving step of the concurrent counter protocol of
`LocalInference`. The state is the counter value (as an integer, so that
going negative would be expressible) paired with the number of admitted
inferences still in flight. An arrival at capacity is rejected and changes
nothing; an arrival below capacity is accepted and increments both; a
`finally` block of an in-flight inference completes it and decrements the
counter. -/
inductive GateStep : (Int × Nat) → (Int × Nat) → Prop
  | arriveAtCap (a : Int) (p : Nat) :
      (MAX_CONCURRENT_INFERENCES : Int) ≤ a → GateStep (a, p) (a, p)
  | arriveBelowCap (a : Int) (p : Nat) :
      a < (MAX_CONCURRENT_INFERENCES : Int) → GateStep (a, p) (a + 1, p + 1)
  | completeOne (a : Int) (p : Nat) : GateStep (a, p + 1) (a - 1, p)

/-- States of the counter protocol reachable from the initial state
(counter 0, nothing in flight). -/
inductive GateReachable : (Int × Nat) → Prop
  | init : GateReachable (0, 0)
  | step {s t} : GateReachable s → GateStep s t → GateReachable t

/-! ### The dispatcher (chatService.ts and codeGenerator.ts) -/

/-- A chat message of `ChatController` sessions (chatController.ts).
`hasCode` and `codeLanguage` are the optional flags set when a fenced code
block is detected. -/
structure ChatMessage where
  id : String
  role : Role
  content : String
  timestamp : Nat
  hasCode : Option Bool
  codeLanguage : Option String
deriving DecidableEq, Repr

/-- A chat session of `ChatController` (chatController.ts). Metadata is a
string-keyed record, modelled as an insertion-ordered association list. -/
structure ChatSession where
  id : String
  title : String
  messages : List ChatMessage
  createdAt : Nat
  updatedAt : Nat
  systemMessage : Option String
  metadata : List (String × String)
deriving DecidableEq, Repr

/-- Embedding of `ChatService.processMessage` (chatService.ts, lines
128-192). The underlying model call (`runChatInference` or
`sendChatRequest`, together with everything else inside the `try` block
that can throw) is the oracle `call`: `.ok r` is a returned response and
`.error e` a thrown failure. A returned response with a truthy `error`
field is re-thrown inside the `try` and caught by the same `catch`. The
`catch` block builds the error response from the session messages; `now`
and `rid` model `Date.now()` and the fresh uuid. -/
def processMessage (session : ChatSession) (useLocalModel : Bool)
    (call : Except String ChatLLMResponse) (now : Nat) (rid : String) :
    ChatLLMResponse :=
  let errorResponse : String → ChatLLMResponse := fun msg =>
    { generatedText :=
        "I\x27m sorry, I encountered an error while processing your message: " ++ msg,
      error := none, finishReason := .error, timestamp := now, requestId := rid,
      latency := none,
      updatedConversation := session.messages.map fun m =>
        { role := m.role, content := m.content, timestamp := m.timestamp },
      sourceType := if useLocalModel then .local else .api }
  match call with
  | .error e => errorResponse e
  | .ok response =>
    if response.error.getD "" ≠ "" then errorResponse (response.error.getD "")
    else response

/-- Enumeration `CodeGenerationSource` of codeGenerator.ts. -/
inductive CodeGenerationSource
  | auto
  | local
  | api
deriving DecidableEq, Repr

/-- Embedding of `CodeGenerator.determineSource` (codeGenerator.ts): an
explicit request wins; under `auto` (or an absent option) a configured
local model path is preferred, then a configured API key, and with neither
a configuration error is thrown. JavaScript truthiness of the config
strings is the non-emptiness test. -/
def determineSource (requestedSource : Option CodeGenerationSource)
    (modelPath apiKey : String) : Except String CodeGenerationSource :=
  if requestedSource = some .local then .ok .local
  else if requestedSource = some .api then .ok .api
  else
    let hasLocalModel := modelPath ≠ ""
    let hasApiKey := apiKey ≠ ""
    if hasLocalModel then .ok .local
    else if hasApiKey then .ok .api
    else .error "No local model or API key configured for code generation"

/-- The response shape used by `CodeGenerator.generateCode`
(codeGenerator.ts): generated text and an optional error string. -/
structure GenLLMResponse where
  text : String
  error : Option String
deriving DecidableEq, Repr

/-- Embedding of `CodeGenerator.generateCode` (codeGenerator.ts). The local
and remote transports are oracles giving the normalized response the
source would produce; `postProcess` is the `ResponsePostProcessor.processCode`
collaborator. The source wraps the body in `try/catch`, but the `catch`
block only logs and re-throws (`throw error`), so every failure — the
configuration error from `determineSource` and the error carried by the
selected response, which the body turns into a thrown exception — escapes
to the caller as an exception. -/
def generateCode (requestedSource : Option CodeGenerationSource)
    (modelPath apiKey : String) (localResult apiResult : GenLLMResponse)
    (postProcess : String → String) : Except String String :=
  match determineSource requestedSource modelPath apiKey with
  | .error e => .error e
  | .ok source =>
    let response := if source = .local then localResult else apiResult
    if response.error.getD "" ≠ "" then .error (response.error.getD "")
    else .ok (postProcess response.text)

/-! ### The conversation store (chatController.ts)

A JavaScript `Map` is modelled as an insertion-ordered association list:
`set` overwrites in place when the key is present and appends otherwise,
`delete` filters, and iteration follows the list order, exactly like a
`Map` (and like `Object.values` on a record with non-index string keys such
as uuids). -/

/-- JavaScript `Map.prototype.set`: overwrite in place, or append a fresh key. -/
def mapSet (m : List (String × α)) (k : String) (v : α) : List (String × α) :=
  if m.any (fun p => p.1 = k) then
    m.map (fun p => if p.1 = k then (k, v) else p)
  else m ++ [(k, v)]

/-- JavaScript `Map.prototype.get`, as an `Option`. -/
def mapGet (m : List (String × α)) (k : String) : Option α :=
  (m.find? (fun p => p.1 = k)).map (fun p => p.2)

/-- JavaScript `Map.prototype.has`. -/
def mapHas (m : List (String × α)) (k : String) : Bool :=
  m.any (fun p => p.1 = k)

/-- JavaScript `Map.prototype.delete`. -/
def mapDelete (m : List (String × α)) (k : String) : List (String × α) :=
  m.filter (fun p => ¬ p.1 = k)

/-- JavaScript `Map.prototype.values`, in insertion order. -/
def mapValues (m : List (String × α)) : List α :=
  m.map (fun p => p.2)

/-- Truthiness of an optional string: present and non-empty. -/
def strTruthy (o : Option String) : Bool :=
  o.getD "" ≠ ""

/-- A word character of the regex class `\w`. -/
def isWordChar (c : Char) : Bool :=
  c.isAlphanum || c = '_'

/-- The backtick character. -/
def backtickChar : Char := Char.ofNat 96

/-- Splits a character list at every (non-overlapping, leftmost-first)
occurrence of a three-backtick fence, keeping the accumulated current part.
This realizes `String.splitOn` for the fence separator with structural
recursion, so that it evaluates inside the kernel. -/
def splitFenceAux : List Char → List Char → List (List Char)
  | c1 :: c2 :: c3 :: rest, acc =>
    if c1 = backtickChar ∧ c2 = backtickChar ∧ c3 = backtickChar then
      acc.reverse :: splitFenceAux rest []
    else splitFenceAux (c2 :: c3 :: rest) (c1 :: acc)
  | c :: rest, acc => splitFenceAux rest (c :: acc)
  | [], acc => [acc.reverse]

/-- The parts of a string between consecutive three-backtick fences. -/
def splitOnFence (s : String) : List (List Char) :=
  splitFenceAux s.toList []

/-- JavaScript `String.prototype.trim`: drop leading and trailing
whitespace. -/
def jsTrim (s : String) : String :=
  String.mk
    (((s.toList.dropWhile fun c => c.isWhitespace).reverse.dropWhile
      fun c => c.isWhitespace).reverse)

/-- The test `/(three backticks)(\w+)?\s*[\s\S]*?(three backticks)/.test(content)`
used by `addUserMessage` and `handleMessage`: since every group between the
fences can match anything (or nothing), the regex matches exactly when the
text contains two disjoint fences, that is, when splitting on the fence
yields at least three parts. -/
def hasCodeBlock (s : String) : Bool :=
  3 ≤ (splitOnFence s).length

/-- The language search `content.match(/(three backticks)(\w+)/)`: scan for
the first fence that is immediately followed by a word character and return
the maximal word-character run after it. -/
def firstCodeLang : List Char → Option String
  | c1 :: c2 :: c3 :: c :: rest =>
    if c1 = backtickChar ∧ c2 = backtickChar ∧ c3 = backtickChar ∧ isWordChar c
    then some (String.mk ((c :: rest).takeWhile isWordChar))
    else firstCodeLang (c2 :: c3 :: c :: rest)
  | _ :: rest => firstCodeLang rest
  | [] => none

/-- The state owned by `ChatController`: the session map and the active
session pointer. -/
structure ControllerState where
  sessions : List (String × ChatSession)
  activeSession : Option String
deriving DecidableEq, Repr

/-- The persisted extension `globalState`: the `chatSessions` record and
the `activeSession` key. -/
structure GlobalState where
  chatSessions : Option (List (String × ChatSession))
  activeSessionId : Option String
deriving DecidableEq, Repr

/-- The initial `ChatController` state: no sessions, no active pointer. -/
def initialState : ControllerState :=
  { sessions := [], activeSession := none }

/-- A `globalState` with neither key ever written. -/
def emptyGlobal : GlobalState :=
  { chatSessions := none, activeSessionId := none }

/-- Embedding of `ChatController.createSession` (chatController.ts, lines
183-214): build the session (with the optional leading system message when
the argument is truthy), insert it and make it active. `sessionId`, `now`
and `msgId` model the fresh uuid, `Date.now()` and the system message id. -/
def createSession (st : ControllerState) (sessionId : String) (now : Nat)
    (title : Option String) (systemMessage : Option String) (msgId : String) :
    ControllerState :=
  let newSession : ChatSession :=
    { id := sessionId,
      title := (match title with
        | some t => if t ≠ "" then t
            else "Chat Session " ++ toString (st.sessions.length + 1)
        | none => "Chat Session " ++ toString (st.sessions.length + 1)),
      messages :=
        if strTruthy systemMessage then
          [{ id := msgId, role := .system, content := systemMessage.getD "",
             timestamp := now, hasCode := none, codeLanguage := none }]
        else [],
      createdAt := now, updatedAt := now, systemMessage := systemMessage,
      metadata := [] }
  { sessions := mapSet st.sessions sessionId newSession,
    activeSession := some sessionId }

/-- Embedding of `ChatController.addUserMessage` (chatController.ts, lines
340-371): append a user message (with the code-detection flags), bump
`updatedAt`; `none` models the thrown not-found error. -/
def addUserMessage (st : ControllerState) (sessionId : String) (msgId : String)
    (now : Nat) (content : String) : Option ControllerState :=
  match mapGet st.sessions sessionId with
  | none => none
  | some session =>
    let message : ChatMessage :=
      { id := msgId, role := .user, content := content, timestamp := now,
        hasCode := if hasCodeBlock content then some true else none,
        codeLanguage :=
          if hasCodeBlock content then firstCodeLang content.toList else none }
    let session1 :=
      { session with messages := session.messages ++ [message], updatedAt := now }
    some { st with sessions := mapSet st.sessions sessionId session1 }

/-- Embedding of `ChatController.setActiveSession` (chatController.ts,
lines 250-257). -/
def setActiveSession (st : ControllerState) (sessionId : String) :
    Option ControllerState :=
  if mapHas st.sessions sessionId then
    some { st with activeSession := some sessionId }
  else none

/-- The session transform performed by `ChatController.updateSession` on
the found session: a truthy title overwrites; a present `systemMessage`
updates or inserts the single system message (or removes it when set to
the empty string); metadata is merged by record spread; `updatedAt` is
bumped. -/
def applySessionUpdate (session : ChatSession) (title : Option String)
    (systemMessage : Option String) (metadata : Option (List (String × String)))
    (now : Nat) (msgId : String) : ChatSession :=
  let s1 : ChatSession :=
    if strTruthy title then { session with title := title.getD "" }
    else session
  let s2 : ChatSession :=
    match systemMessage with
    | none => s1
    | some sm =>
      let s1a : ChatSession := { s1 with systemMessage := some sm }
      let idx := s1a.messages.findIdx (fun m => m.role = .system)
      if sm ≠ "" then
        if h : idx < s1a.messages.length then
          { s1a with messages :=
              s1a.messages.set idx { s1a.messages.get ⟨idx, h⟩ with content := sm } }
        else
          { s1a with messages :=
              { id := msgId, role := .system, content := sm, timestamp := now,
                hasCode := none, codeLanguage := none } :: s1a.messages }
      else
        { s1a with messages :=
            s1a.messages.eraseIdx idx }
  let s3 : ChatSession :=
    match metadata with
    | none => s2
    | some md =>
      { s2 with metadata := md.foldl (fun acc p => mapSet acc p.1 p.2) s2.metadata }
  { s3 with updatedAt := now }

/-- Embedding of `ChatController.updateSession` (chatController.ts, lines
264-311): apply the session transform to the found session and store it
back; `none` models the thrown not-found error. -/
def updateSession (st : ControllerState) (sessionId : String)
    (title : Option String) (systemMessage : Option String)
    (metadata : Option (List (String × String))) (now : Nat) (msgId : String) :
    Option ControllerState :=
  match mapGet st.sessions sessionId with
  | none => none
  | some session =>
    let s4 := applySessionUpdate session title systemMessage metadata now msgId
    some { st with sessions := mapSet st.sessions sessionId s4 }

/-- The head of `getAllSessions()` (sessions sorted by `updatedAt`
descending with a stable sort): the first session attaining the maximal
`updatedAt`. -/
def mostRecent : List ChatSession → Option ChatSession
  | [] => none
  | s :: rest =>
    match mostRecent rest with
    | none => some s
    | some t => if s.updatedAt < t.updatedAt then some t else some s

/-- Embedding of `ChatController.deleteSession` (chatController.ts, lines
317-332): remove the session; when it was active, the pointer moves to the
most recently updated remaining session, or becomes unset. -/
def deleteSession (st : ControllerState) (sessionId : String) :
    Option ControllerState :=
  if mapHas st.sessions sessionId then
    let sessions1 := mapDelete st.sessions sessionId
    let active1 :=
      if st.activeSession = some sessionId then
        match mostRecent (mapValues sessions1) with
        | some s => some s.id
        | none => none
      else st.activeSession
    some { sessions := sessions1, activeSession := active1 }
  else none

/-- Embedding of `ChatController.clearSessionHistory` (chatController.ts,
lines 532-547): keep only the first system message, if any. -/
def clearSessionHistory (st : ControllerState) (sessionId : String) (now : Nat) :
    Option ControllerState :=
  match mapGet st.sessions sessionId with
  | none => none
  | some session =>
    let session1 :=
      { session with
        messages :=
          match session.messages.find? (fun m => m.role = .system) with
          | some m => [m]
          | none => [],
        updatedAt := now }
    some { st with sessions := mapSet st.sessions sessionId session1 }

/-- Embedding of `ChatController.saveSessions` (chatController.ts, lines
157-175): write the session map as a keyed record, and write the active
pointer only when it is truthy (a `null` pointer leaves the stored key
untouched). -/
def saveSessions (st : ControllerState) (g : GlobalState) : GlobalState :=
  { chatSessions := some st.sessions,
    activeSessionId :=
      match st.activeSession with
      | some a => if a ≠ "" then some a else g.activeSessionId
      | none => g.activeSessionId }

/-- Embedding of `ChatController.loadSessions` (chatController.ts, lines
127-152): re-insert every stored session keyed by its own `id` field, then
restore the active pointer when it is truthy and present, falling back to
the most recently updated session when any exist. -/
def loadSessions (g : GlobalState) : ControllerState :=
  let sessions :=
    match g.chatSessions with
    | some saved => saved.foldl (fun acc p => mapSet acc p.2.id p.2) []
    | none => []
  let fallbackActive :=
    match mostRecent (mapValues sessions) with
    | some s => some s.id
    | none => none
  let active :=
    match g.activeSessionId with
    | some aid =>
      if aid ≠ "" ∧ mapHas sessions aid then some aid else fallbackActive
    | none => fallbackActive
  { sessions := sessions, activeSession := active }

/-- The states of `ChatController` reachable through its public mutating
operations, starting from the empty store. Fresh uuids are modelled by the
side conditions that a created session id is non-empty and not already
present. -/
inductive Reachable : ControllerState → Prop
  | init : Reachable initialState
  | create {st} (sessionId : String) (now : Nat) (title systemMessage : Option String)
      (msgId : String) : Reachable st → mapHas st.sessions sessionId = false →
      sessionId ≠ "" →
      Reachable (createSession st sessionId now title systemMessage msgId)
  | addMsg {st st'} (sessionId msgId : String) (now : Nat) (content : String) :
      Reachable st → addUserMessage st sessionId msgId now content = some st' →
      Reachable st'
  | setActive {st st'} (sessionId : String) :
      Reachable st → setActiveSession st sessionId = some st' → Reachable st'
  | update {st st'} (sessionId : String) (title systemMessage : Option String)
      (metadata : Option (List (String × String))) (now : Nat) (msgId : String) :
      Reachable st →
      updateSession st sessionId title systemMessage metadata now msgId = some st' →
      Reachable st'
  | delete {st st'} (sessionId : String) :
      Reachable st → deleteSession st sessionId = some st' → Reachable st'
  | clear {st st'} (sessionId : String) (now : Nat) :
      Reachable st → clearSessionHistory st sessionId now = some st' →
      Reachable st'

/-! ### Code extraction (responsePostProcessor.ts and chatService.ts) -/

/-- The first match of the extraction regex of
`ResponsePostProcessor.extractCodeFromResponse`
(`/(fence)(?:(\w+)\n)?([\s\S]*?)(fence)/` where a fence is three backticks):
the block body is everything between the first fence and the next one; an
optional language tag is a word-character run directly after the opening
fence, terminated by a newline. Returns `none` when the text has no closed
fenced block. -/
def findCodeBlock (s : String) : Option (Option String × String) :=
  match splitOnFence s with
  | _ :: middle :: _ :: _ =>
    let wchars := middle.takeWhile isWordChar
    let rest := middle.drop wchars.length
    match wchars, rest with
    | [], _ => some (none, String.mk middle)
    | ws, '\n' :: tail => some (some (String.mk ws), String.mk tail)
    | _, _ => some (none, String.mk middle)
  | _ => none

/-- Embedding of `ResponsePostProcessor.extractCodeFromResponse`
(responsePostProcessor.ts, lines 153-179). The heuristic
`ResponsePostProcessor.looksLikeCode` is passed in as the collaborator
`llc`; as in the source (lines 172-178), both the looks-like-code branch
and the fallback branch return the trimmed input text, so the heuristic
cannot affect the result. -/
def extractCodeFromResponse (llc : String → Bool) (responseText : String)
    (defaultLanguage : Option String) : String × Option String :=
  match findCodeBlock responseText with
  | some (lang, code) =>
    (jsTrim code, match lang with | some l => some l | none => defaultLanguage)
  | none =>
    if llc responseText then (jsTrim responseText, defaultLanguage)
    else (jsTrim responseText, defaultLanguage)

/-- One parse attempt of the chat extraction regex
`/(fence)(\w+)?\s*\n([\s\S]*?)(fence)/` on the text between two fences: an
optional word-character language tag, then a whitespace run that must
contain a newline (the greedy `\s*` ends at the last newline of the run),
then the captured code. -/
def parseChatMiddle (cs : List Char) : Option (Option String × String) :=
  let w := cs.takeWhile isWordChar
  let afterW := cs.drop w.length
  let ws := afterW.takeWhile (fun c => c.isWhitespace)
  if ws.any (fun c => c = '\n') then
    let afterNl := (ws.reverse.takeWhile (fun c => ¬ c = '\n')).reverse
    let content := afterNl ++ afterW.drop ws.length
    some ((if w = [] then none else some (String.mk w)), String.mk content)
  else none

/-- The regex search of `ChatService.extractCodeFromMessage` over the
fence-separated parts: each inner part in turn is tried as the body of a
block whose opening fence precedes it; a part qualifies only when a closing
fence follows it (the part is not the last one). -/
def chatBlockFrom : List (List Char) → Option (Option String × String)
  | m :: rest =>
    if rest = [] then none
    else
      match parseChatMiddle m with
      | some r => some r
      | none => chatBlockFrom rest
  | [] => none

/-- Embedding of `ChatService.extractCodeFromMessage` (chatService.ts,
lines 250-266): extract the first fenced block that has a newline after
its optional language tag; with no match, return empty code and no
language. -/
def extractCodeFromMessage (message : String) : String × Option String :=
  match splitOnFence message with
  | _ :: rest =>
    match chatBlockFrom rest with
    | some (lang, code) => (jsTrim code, lang)
    | none => ("", none)
  | [] => ("", none)

/-! ### The local model loader (localModelLoader.ts) -/

/-- The mock model instance built by `loadModel` (its `predict` closure has
no observable state and is omitted). -/
structure ModelInstance where
  name : String
  loaded : Bool
deriving DecidableEq, Repr

/-- Structure `ModelMetadata` of localModelLoader.ts. -/
structure ModelMetadata where
  name : String
  version : String
  modelType : String
  quantization : String
  size : Nat
  parameters : Nat
  modelFormat : String
  lastModified : Nat
deriving DecidableEq, Repr

/-- The mutable state of `LocalModelLoader`, together with the allocation
flag of its `ResourceManager` collaborator. -/
structure LoaderState where
  currentModel : Option ModelInstance
  modelPath : String
  modelMetadata : Option ModelMetadata
  isLoading : Bool
  lastLoadTime : Nat
  resourcesAllocated : Bool
deriving DecidableEq, Repr

/-- The environment consulted by one `loadModel` call: the configured model
path, whether the chosen path exists on disk, its resolution to an absolute
path, the metadata extracted by `extractModelMetadata` (which never throws:
it falls back to minimal metadata internally), the resource check verdict
and the clock. -/
structure LoadEnv where
  configModelPath : Option String
  pathExists : Bool
  resolvedPath : String
  metadata : ModelMetadata
  resourceSufficient : Bool
  resourceReason : String
  now : Nat
deriving DecidableEq, Repr

/-- The `catch` block of `loadModel`: clear the model and metadata, release
any allocated resources, re-throw the original error; the `finally` block
then resets the loading guard. -/
def loadModelFail (st : LoaderState) (msg : String) :
    Except String Unit × LoaderState :=
  (.error msg,
   { st with
     currentModel := none, modelMetadata := none,
     resourcesAllocated := false, isLoading := false })

/-- Embedding of `LocalModelLoader.isModelLoaded`. -/
def isModelLoaded (st : LoaderState) : Bool :=
  st.currentModel.isSome

/-- Embedding of `LocalModelLoader.getModelMetadata`. -/
def getModelMetadata (st : LoaderState) : Option ModelMetadata :=
  st.modelMetadata

/-- Embedding of `LocalModelLoader.loadModel` (localModelLoader.ts, lines
161-227): reject a concurrent load (before the `try`, leaving the state
untouched), then resolve the path, extract metadata, check and allocate
resources, and install the mock model; any thrown failure goes through
`loadModelFail`. -/
def loadModel (st : LoaderState) (modelPathArg : Option String) (env : LoadEnv) :
    Except String Unit × LoaderState :=
  if st.isLoading then (.error "Model loading already in progress", st)
  else
    let st1 := { st with isLoading := true }
    let configPath : String :=
      match modelPathArg with
      | some p => if p ≠ "" then p else env.configModelPath.getD ""
      | none => env.configModelPath.getD ""
    if configPath = "" then loadModelFail st1 "No model path specified"
    else if ¬ env.pathExists then
      loadModelFail st1 ("Model path does not exist: " ++ configPath)
    else
      let st2 := { st1 with modelPath := env.resolvedPath }
      let st3 := { st2 with modelMetadata := some env.metadata }
      if ¬ env.resourceSufficient then
        loadModelFail st3
          ("Insufficient resources to load model: " ++ env.resourceReason)
      else
        let st4 := { st3 with resourcesAllocated := true }
        let st5 :=
          { st4 with
            currentModel := some { name := env.metadata.name, loaded := true },
            lastLoadTime := env.now }
        (.ok (), { st5 with isLoading := false })

/-- The classification mapping of claim C3 amended only at its last two
cases: the source classifies every status of 500 or above (not only the
5xx range) as `server`/retryable, so `unknown` is reached for response
statuses below 400 (and non-Axios errors) only. -/
def claimedVerdictAmended : ErrorInput → APIErrorType × Bool
  | .axiosErr _ code response =>
    match response with
    | none => (.network, true)
    | some r =>
      if r.status = 408 ∨ code = some "ECONNABORTED" then (.timeout, true)
      else if r.status = 429 then (.rate_limit, true)
      else if r.status = 401 ∨ r.status = 403 then (.authentication, false)
      else if 400 ≤ r.status ∧ r.status < 500 then (.bad_request, false)
      else if 500 ≤ r.status then (.server, true)
      else (.unknown, false)
  | .otherErr _ => (.unknown, false)

/-- The wrapped message thrown when the retry loop gives up. -/
def wrapFailMsg (maxRetries : Nat) (details : APIErrorDetails) : String :=
  "API request failed after " ++ toString (maxRetries + 1) ++ " attempts: " ++
    details.message

/-! ## Theorems -/

/-! ### C3 — error classification -/

/-- C3, counterexample: at HTTP status 600 — outside every range the claim
enumerates, hence "unrecognized" — the code classifies `server`/retryable
while the claimed mapping demands `unknown`/not retryable. -/
theorem c3_counterexample :
    (categorizeError (.axiosErr "boom" none (some { status := 600, retryAfter := none }))).type
      = .server ∧
    (categorizeError (.axiosErr "boom" none (some { status := 600, retryAfter := none }))).retryable
      = true ∧
    claimedVerdict (.axiosErr "boom" none (some { status := 600, retryAfter := none }))
      = (.unknown, false) := by
  refine ⟨rfl, rfl, rfl⟩

/-- C3 (amended): `categorizeError` is a pure total function realizing the
claimed mapping with the `server` case widened to every status of 500 or
above: no transport response means `network`/retryable, timeout or aborted
means `timeout`/retryable, 429 means `rate_limit`/retryable, 401/403 means
`authentication`/not retryable, every other 4xx means `bad_request`/not
retryable, 500 and above means `server`/retryable, and anything else means
`unknown`/not retryable. -/
theorem c3_categorize_matches_amended_mapping (e : ErrorInput) :
    (categorizeError e).type = (claimedVerdictAmended e).1 ∧
    (categorizeError e).retryable = (claimedVerdictAmended e).2 := by
  cases e with
  | axiosErr msg code response =>
    cases response with
    | none => exact ⟨rfl, rfl⟩
    | some r =>
      simp only [categorizeError, claimedVerdictAmended]
      split_ifs <;> exact ⟨rfl, rfl⟩
  | otherErr msg => exact ⟨rfl, rfl⟩

/-! ### C4 — retry policy -/

/-- The categories `authentication` and `bad_request` are exactly the ones
whose verdict is never retryable, apart from `unknown`. -/
lemma retryable_false_of_auth_or_bad (e : ErrorInput)
    (h : (categorizeError e).type = .authentication ∨
         (categorizeError e).type = .bad_request) :
    (categorizeError e).retryable = false := by
  cases e with
  | axiosErr msg code response =>
    cases response with
    | none => simp only [categorizeError] at h; rcases h with h | h <;> cases h
    | some r =>
      simp only [categorizeError] at h ⊢
      split_ifs at h ⊢ <;> first
        | rfl
        | (rcases h with h | h <;> cases h)
  | otherErr msg => simp only [categorizeError] at h; rcases h with h | h <;> cases h

/-- The categories `network`, `timeout`, `rate_limit` and `server` always
carry a retryable verdict. -/
lemma retryable_true_of_transient (e : ErrorInput)
    (h : (categorizeError e).type = .network ∨
         (categorizeError e).type = .timeout ∨
         (categorizeError e).type = .rate_limit ∨
         (categorizeError e).type = .server) :
    (categorizeError e).retryable = true := by
  cases e with
  | axiosErr msg code response =>
    cases response with
    | none => rfl
    | some r =>
      simp only [categorizeError] at h ⊢
      split_ifs at h ⊢ <;> first
        | rfl
        | (rcases h with h | h | h | h <;> cases h)
  | otherErr msg =>
    simp only [categorizeError] at h
    rcases h with h | h | h | h <;> cases h

/-- Step lemma: a successful attempt returns immediately. -/
lemma retryAux_ok {fn : Nat → Except ErrorInput α} {a v : _} (m : Nat)
    (h : fn a = .ok v) : retryAux fn m a = (.ok v, a + 1) := by
  rw [retryAux, h]

/-- Step lemma: a failure that is not retryable, or one with the attempts
exhausted, breaks out of the loop and throws the wrapped error. -/
lemma retryAux_error_stop {fn : Nat → Except ErrorInput α} {a : Nat}
    {e : ErrorInput} (m : Nat) (h : fn a = .error e)
    (hc : (categorizeError e).retryable = false ∨ m ≤ a) :
    retryAux fn m a = (.error (wrapFailMsg m (categorizeError e)), a + 1) := by
  rw [retryAux, h]
  dsimp only
  rw [if_pos hc]
  rfl

/-- Step lemma: a retryable failure with attempts remaining sleeps and
retries. -/
lemma retryAux_error_cont {fn : Nat → Except ErrorInput α} {a : Nat}
    {e : ErrorInput} (m : Nat) (h : fn a = .error e)
    (hc : ¬ ((categorizeError e).retryable = false ∨ m ≤ a)) :
    retryAux fn m a = retryAux fn m (a + 1) := by
  rw [retryAux, h]
  dsimp only
  rw [if_neg hc]

/-- The attempt counter of the retry loop never exceeds
`maxRetries + 1` and advances by at least one. -/
lemma retryAux_attempts_bounds (fn : Nat → Except ErrorInput α) (m : Nat) :
    ∀ k a, m - a ≤ k → a ≤ m →
      a + 1 ≤ (retryAux fn m a).2 ∧ (retryAux fn m a).2 ≤ m + 1 := by
  intro k
  induction k with
  | zero =>
    intro a hk ha
    have haa : a = m := by omega
    cases hfn : fn a with
    | ok v =>
      rw [retryAux_ok m hfn]
      exact ⟨Nat.le_refl _, by omega⟩
    | error e =>
      rw [retryAux_error_stop m hfn (Or.inr (by omega))]
      exact ⟨Nat.le_refl _, by omega⟩
  | succ k ih =>
    intro a hk ha
    cases hfn : fn a with
    | ok v =>
      rw [retryAux_ok m hfn]
      exact ⟨Nat.le_refl _, by omega⟩
    | error e =>
      by_cases hcond : ((categorizeError e).retryable = false ∨ m ≤ a)
      · rw [retryAux_error_stop m hfn hcond]
        exact ⟨Nat.le_refl _, by omega⟩
      · rw [retryAux_error_cont m hfn hcond]
        push_neg at hcond
        have := ih (a + 1) (by omega) (by omega)
        exact ⟨by omega, this.2⟩

/-- When every attempt up to `maxRetries` fails with a retryable error, the
loop uses them all and throws the wrapped message built from the last
classification. -/
lemma retryAux_all_fail (fn : Nat → Except ErrorInput α) (m : Nat)
    (errOf : Nat → ErrorInput) :
    ∀ k a, m - a = k → a ≤ m →
      (∀ i, a ≤ i → i ≤ m → fn i = .error (errOf i)) →
      (∀ i, a ≤ i → i ≤ m → (categorizeError (errOf i)).retryable = true) →
      retryAux fn m a = (.error (wrapFailMsg m (categorizeError (errOf m))), m + 1) := by
  intro k
  induction k with
  | zero =>
    intro a hk ha hfail hretry
    have haa : a = m := by omega
    subst haa
    rw [retryAux_error_stop a (hfail a (Nat.le_refl _) (Nat.le_refl _))
      (Or.inr (Nat.le_refl _))]
  | succ k ih =>
    intro a hk ha hfail hretry
    have halt : a < m := by omega
    have hcond : ¬ ((categorizeError (errOf a)).retryable = false ∨ m ≤ a) := by
      push_neg
      refine ⟨?_, by omega⟩
      rw [hretry a (Nat.le_refl _) (by omega)]
      simp
    rw [retryAux_error_cont m (hfail a (Nat.le_refl _) (by omega)) hcond]
    exact ih (a + 1) (by omega) (by omega)
      (fun i h1 h2 => hfail i (by omega) h2)
      (fun i h1 h2 => hretry i (by omega) h2)

/-- C4: the retry loop performs attempts 0 through `maxRetries` inclusive
(the attempt count always lies in `[1, maxRetries + 1]`); a first failure
classified `authentication` or `bad_request` raises the wrapped error after
exactly one attempt; failures classified `network`, `timeout`, `rate_limit`
or `server` are retried until `maxRetries` is exhausted, at which point the
raised error reports the full attempt count; and an operation failing twice
with a `server` classification before succeeding returns the success value
with exactly 3 attempts made. -/
theorem c4_retry_policy :
    (∀ (α : Type) (fn : Nat → Except ErrorInput α) (m : Nat),
      1 ≤ (retry fn m).2 ∧ (retry fn m).2 ≤ m + 1) ∧
    (∀ (α : Type) (fn : Nat → Except ErrorInput α) (m : Nat) (e : ErrorInput),
      fn 0 = .error e →
      ((categorizeError e).type = .authentication ∨
        (categorizeError e).type = .bad_request) →
      retry fn m = (.error (wrapFailMsg m (categorizeError e)), 1)) ∧
    (∀ (α : Type) (fn : Nat → Except ErrorInput α) (m : Nat)
        (errOf : Nat → ErrorInput),
      (∀ i, i ≤ m → fn i = .error (errOf i)) →
      (∀ i, i ≤ m →
        ((categorizeError (errOf i)).type = .network ∨
          (categorizeError (errOf i)).type = .timeout ∨
          (categorizeError (errOf i)).type = .rate_limit ∨
          (categorizeError (errOf i)).type = .server)) →
      retry fn m = (.error (wrapFailMsg m (categorizeError (errOf m))), m + 1)) ∧
    (∀ (α : Type) (fn : Nat → Except ErrorInput α) (v : α) (e0 e1 : ErrorInput),
      fn 0 = .error e0 → fn 1 = .error e1 → fn 2 = .ok v →
      (categorizeError e0).type = .server → (categorizeError e1).type = .server →
      retry fn MAX_RETRIES = (.ok v, 3)) := by
  refine ⟨?_, ?_, ?_, ?_⟩
  · intro α fn m
    exact retryAux_attempts_bounds fn m m 0 (by omega) (by omega)
  · intro α fn m e hfn htype
    have hr : (categorizeError e).retryable = false :=
      retryable_false_of_auth_or_bad e htype
    rw [retry, retryAux_error_stop m hfn (Or.inl hr)]
  · intro α fn m errOf hfail htype
    exact retryAux_all_fail fn m errOf m 0 (by omega) (by omega)
      (fun i h1 h2 => hfail i h2)
      (fun i h1 h2 => retryable_true_of_transient (errOf i) (htype i h2))
  · intro α fn v e0 e1 h0 h1 h2 hs0 hs1
    have hr0 : (categorizeError e0).retryable = true :=
      retryable_true_of_transient e0 (Or.inr (Or.inr (Or.inr hs0)))
    have hr1 : (categorizeError e1).retryable = true :=
      retryable_true_of_transient e1 (Or.inr (Or.inr (Or.inr hs1)))
    have hc0 : ¬ ((categorizeError e0).retryable = false ∨ MAX_RETRIES ≤ 0) := by
      push_neg
      exact ⟨by rw [hr0]; simp, by rw [MAX_RETRIES]; omega⟩
    have hc1 : ¬ ((categorizeError e1).retryable = false ∨ MAX_RETRIES ≤ 1) := by
      push_neg
      exact ⟨by rw [hr1]; simp, by rw [MAX_RETRIES]; omega⟩
    rw [retry, retryAux_error_cont MAX_RETRIES h0 hc0,
      retryAux_error_cont MAX_RETRIES h1 hc1, retryAux_ok MAX_RETRIES h2]

/-- C4, witness: a concrete operation failing twice with HTTP 500 and then
succeeding returns 42 after exactly 3 attempts, and a concrete operation
failing with HTTP 401 raises the wrapped error after exactly 1 attempt. -/
theorem c4_retry_policy_witness :
    retry (fun i => if i < 2 then
        .error (.axiosErr "boom" none (some { status := 500, retryAfter := none }))
      else .ok (42 : Nat)) 3 = (.ok 42, 3) ∧
    retry (fun _ => (.error (.axiosErr "denied" none
        (some { status := 401, retryAfter := none })) : Except ErrorInput Nat)) 3 =
      (.error "API request failed after 4 attempts: Authentication failed", 1) := by
  constructor
  · exact c4_retry_policy.2.2.2 Nat _ 42
      (.axiosErr "boom" none (some { status := 500, retryAfter := none }))
      (.axiosErr "boom" none (some { status := 500, retryAfter := none }))
      rfl rfl rfl rfl rfl
  · exact c4_retry_policy.2.1 Nat _ 3
      (.axiosErr "denied" none (some { status := 401, retryAfter := none }))
      rfl (Or.inl rfl)

/-! ### C5 — the rate-limit delay override -/

/-- On a rate-limit classification, a present `retry-after` header replaces
the computed backoff by the header value times 1000. -/
lemma chooseRetryDelay_override (msg : String) (code : Option String)
    (status n attempt : Nat) (r : ℚ)
    (h : (categorizeError
      (.axiosErr msg code (some { status := status, retryAfter := some n }))).type
        = .rate_limit) :
    chooseRetryDelay
      (.axiosErr msg code (some { status := status, retryAfter := some n }))
      attempt r = (n : ℚ) * 1000 := by
  unfold chooseRetryDelay
  dsimp only
  rw [if_pos h]

/-- C5, counterexample: a rate-limited failure whose `retry-after` header
asks for 10^9 seconds makes the loop sleep 10^12 milliseconds (about 31
years) — the raw header value times 1000, unclamped even by the handler
maximum backoff bound `MAX_DELAY`, refuting "unclamped except by a sane
upper bound". -/
theorem c5_counterexample :
    chooseRetryDelay
      (.axiosErr "Too many requests" none
        (some { status := 429, retryAfter := some 1000000000 })) 0 (1 / 2)
        = 1000000000000 ∧
    MAX_DELAY < 1000000000000 := by
  constructor
  · rw [chooseRetryDelay_override "Too many requests" none 429 1000000000 0
      (1 / 2) (by simp [categorizeError])]
    norm_num
  · norm_num [MAX_DELAY]

/-- C5 (amended): when a retried failure is classified `rate_limit` and
carries a server-specified retry delay, that value (converted from seconds
to milliseconds) is used verbatim as the sleep delay instead of the
computed backoff, with no clamping of any kind — in particular for every
bound there is a header value whose resulting delay exceeds it. -/
theorem c5_rate_limit_override (msg : String) (code : Option String)
    (status n attempt : Nat) (r : ℚ)
    (h : (categorizeError
      (.axiosErr msg code (some { status := status, retryAfter := some n }))).type
        = .rate_limit) :
    chooseRetryDelay
        (.axiosErr msg code (some { status := status, retryAfter := some n }))
        attempt r = (n : ℚ) * 1000 ∧
    ∀ bound : ℚ, ∃ k : Nat,
      bound < chooseRetryDelay
        (.axiosErr msg code (some { status := status, retryAfter := some k }))
        attempt r := by
  have hover : ∀ k : Nat,
      (categorizeError
        (.axiosErr msg code (some { status := status, retryAfter := some k }))).type
          = .rate_limit → chooseRetryDelay
        (.axiosErr msg code (some { status := status, retryAfter := some k }))
        attempt r = (k : ℚ) * 1000 :=
    fun k hk => chooseRetryDelay_override msg code status k attempt r hk
  have htype : ∀ k : Nat,
      (categorizeError
        (.axiosErr msg code (some { status := status, retryAfter := some k }))).type
          = .rate_limit := by
    intro k
    simp only [categorizeError] at h ⊢
    split_ifs at h ⊢ <;> first | rfl | cases h
  refine ⟨hover n (htype n), ?_⟩
  intro bound
  obtain ⟨k, hk⟩ := exists_nat_gt (bound / 1000)
  refine ⟨k, ?_⟩
  rw [hover k (htype k)]
  have h1000 : (0 : ℚ) < 1000 := by norm_num
  calc bound = bound / 1000 * 1000 := by field_simp
    _ < (k : ℚ) * 1000 := by
        exact mul_lt_mul_of_pos_right hk h1000

/-- C5, witness: a concrete rate-limited failure with `retry-after: 7`
sleeps exactly 7000 milliseconds in place of the computed backoff. -/
theorem c5_rate_limit_override_witness :
    chooseRetryDelay
      (.axiosErr "Too many requests" none
        (some { status := 429, retryAfter := some 7 })) 1 (1 / 2) = 7000 := by
  have h := (c5_rate_limit_override "Too many requests" none 429 7 1 (1 / 2)
    (by simp [categorizeError])).1
  rw [h]
  norm_num

/-! ### C6 — backoff bounds and growth -/

/-- C6: for every attempt `N` and every sampled `Math.random()` value
`r ∈ [0, 1)`, the computed backoff equals `min(10000, 1000·2^N)` scaled by
`1 + j` for some jitter `j ∈ [-0.3, 0.3]` and then clamped to
`[1000, 10000]`; consequently the returned delay always lies within
`[BASE_DELAY, MAX_DELAY] = [1000, 10000]`, and at the expected jitter
(`r = 1/2`, hence `j = 0`) the delay strictly increases with the attempt
number until the clamp is reached at `N = 4`. -/
theorem c6_backoff_bounds (N : Nat) (r : ℚ) (h0 : 0 ≤ r) (h1 : r < 1) :
    (∃ j : ℚ, -(3 / 10) ≤ j ∧ j ≤ 3 / 10 ∧
      calculateBackoff N r =
        min MAX_DELAY (max BASE_DELAY
          (min MAX_DELAY (BASE_DELAY * 2 ^ N) * (1 + j)))) ∧
    BASE_DELAY ≤ calculateBackoff N r ∧
    calculateBackoff N r ≤ MAX_DELAY ∧
    (∀ M : Nat, M < 4 →
      calculateBackoff M (1 / 2) < calculateBackoff (M + 1) (1 / 2)) := by
  refine ⟨⟨r * (6 / 10) - 3 / 10, by linarith, by linarith, rfl⟩, ?_, ?_, ?_⟩
  · exact le_min (by norm_num [BASE_DELAY, MAX_DELAY]) (le_max_left _ _)
  · exact min_le_left _ _
  · intro M hM
    interval_cases M <;>
      norm_num [calculateBackoff, BASE_DELAY, MAX_DELAY]

/-- C6, witness: at attempt 2 with the expected jitter sample the delay is
4000 ms, inside the claimed bounds. -/
theorem c6_backoff_bounds_witness :
    BASE_DELAY ≤ calculateBackoff 2 (1 / 2) ∧
    calculateBackoff 2 (1 / 2) ≤ MAX_DELAY := by
  have h := c6_backoff_bounds 2 (1 / 2) (by norm_num) (by norm_num)
  exact ⟨h.2.1, h.2.2.1⟩

/-! ### C7 — source selection under `auto` -/

/-- C7: with the source preference `auto` (or unspecified), a configured
local model path selects the local model; otherwise a configured API key
selects the remote API; otherwise the call fails with a configuration
error — there is no silent default. -/
theorem c7_determine_source_auto (requestedSource : Option CodeGenerationSource)
    (hreq : requestedSource = none ∨ requestedSource = some .auto)
    (modelPath apiKey : String) :
    (modelPath ≠ "" →
      determineSource requestedSource modelPath apiKey = .ok .local) ∧
    (modelPath = "" → apiKey ≠ "" →
      determineSource requestedSource modelPath apiKey = .ok .api) ∧
    (modelPath = "" → apiKey = "" →
      determineSource requestedSource modelPath apiKey =
        .error "No local model or API key configured for code generation") := by
  have hne : requestedSource ≠ some .local ∧ requestedSource ≠ some .api := by
    rcases hreq with h | h <;> rw [h] <;> exact ⟨by simp, by simp⟩
  refine ⟨?_, ?_, ?_⟩
  · intro hmp
    simp [determineSource, hne.1, hne.2, hmp]
  · intro hmp hak
    simp [determineSource, hne.1, hne.2, hmp, hak]
  · intro hmp hak
    simp [determineSource, hne.1, hne.2, hmp, hak]

/-- C7, witness: with `auto`, no local path configured and a remote key
configured, the remote API path is selected. -/
theorem c7_determine_source_auto_witness :
    determineSource (some .auto) "" "sk-test-key" = .ok .api := by
  exact (c7_determine_source_auto (some .auto) (Or.inr rfl) "" "sk-test-key").2.1
    rfl (by simp)

/-! ### C2 — the local-inference concurrency cap -/

/-- Invariant of the counter protocol: the counter mirrors the number of
in-flight admitted inferences and stays within `[0, 4]`. -/
lemma gateReachable_inv (s : Int × Nat) (h : GateReachable s) :
    s.1 = s.2 ∧ 0 ≤ s.1 ∧ s.1 ≤ (MAX_CONCURRENT_INFERENCES : Int) := by
  have hM : (MAX_CONCURRENT_INFERENCES : Int) = 4 := by
    norm_num [MAX_CONCURRENT_INFERENCES]
  induction h with
  | init => exact ⟨rfl, by omega, by omega⟩
  | step hr hs ih =>
    cases hs with
    | arriveAtCap a p hcap => exact ih
    | arriveBelowCap a p hlt =>
      obtain ⟨h1, h2, h3⟩ := ih
      simp only at h1 ⊢
      rw [hM] at hlt ⊢
      refine ⟨by push_cast; omega, by omega, by omega⟩
    | completeOne a p =>
      obtain ⟨h1, h2, h3⟩ := ih
      simp only at h1 ⊢
      refine ⟨by push_cast at h1 ⊢; omega, by push_cast at h1 ⊢; omega, by omega⟩

/-- C2: every state of the `activeInferences` counter reachable by
interleaving arrivals and completions keeps the counter equal to the number
of in-flight admitted inferences, never negative and never above
`MAX_CONCURRENT_INFERENCES = 4`; an arrival at the cap immediately receives
a terminal error response carrying the non-empty busy message with the
counter untouched; and every admitted call restores the counter exactly on
both the success and the failure exit path (the `finally` decrement runs
exactly once per admission). -/
theorem c2_concurrency_cap :
    (∀ a : Int, ∀ p : Nat, GateReachable (a, p) →
      a = p ∧ 0 ≤ a ∧ a ≤ (MAX_CONCURRENT_INFERENCES : Int)) ∧
    (∀ (active : Nat) (rid : String) (body : Except String String) (lat : Nat),
      MAX_CONCURRENT_INFERENCES ≤ active →
      (runInference active rid body lat).1.finishReason = .error ∧
      (runInference active rid body lat).1.error = some busyMessage ∧
      busyMessage ≠ "" ∧
      (runInference active rid body lat).2 = active) ∧
    (∀ (active : Nat) (rid : String) (body : Except String String) (lat : Nat),
      active < MAX_CONCURRENT_INFERENCES →
      (runInference active rid body lat).2 = active) ∧
    (∀ (active : Nat) (rid : String) (history : List ConvMessage)
        (body : Except String String) (lat now : Nat),
      MAX_CONCURRENT_INFERENCES ≤ active →
      (runChatInference active rid history body lat now).1.finishReason = .error ∧
      (runChatInference active rid history body lat now).1.error = some busyMessage ∧
      (runChatInference active rid history body lat now).2 = active) ∧
    (∀ (active : Nat) (rid : String) (history : List ConvMessage)
        (body : Except String String) (lat now : Nat),
      active < MAX_CONCURRENT_INFERENCES →
      (runChatInference active rid history body lat now).2 = active) := by
  refine ⟨?_, ?_, ?_, ?_, ?_⟩
  · intro a p h
    exact gateReachable_inv (a, p) h
  · intro active rid body lat hcap
    rw [runInference]
    rw [if_pos hcap]
    exact ⟨rfl, rfl, by simp [busyMessage], rfl⟩
  · intro active rid body lat hlt
    rw [runInference, if_neg (by omega)]
    cases body <;> simp
  · intro active rid history body lat now hcap
    rw [runChatInference, if_pos hcap]
    exact ⟨rfl, rfl, rfl⟩
  · intro active rid history body lat now hlt
    rw [runChatInference, if_neg (by omega)]
    cases body <;> simp

/-- C2, witness: the state with two in-flight inferences is reachable and
satisfies the bounds; a fifth arrival at a counter of 4 is rejected with
the busy message and leaves the counter at 4; an admitted call at counter 3
leaves the counter at 3 after a failing body. -/
theorem c2_concurrency_cap_witness :
    ((0 : Int) ≤ 2 ∧ (2 : Int) ≤ (MAX_CONCURRENT_INFERENCES : Int)) ∧
    (runInference 4 "req" (.ok "text") 0).1.error = some busyMessage ∧
    (runInference 4 "req" (.ok "text") 0).2 = 4 ∧
    (runInference 3 "req" (.error "boom") 5).2 = 3 := by
  have hreach : GateReachable ((2 : Int), (2 : Nat)) := by
    have s1 : GateStep ((0 : Int), (0 : Nat)) (0 + 1, 0 + 1) :=
      GateStep.arriveBelowCap 0 0 (by rw [MAX_CONCURRENT_INFERENCES]; omega)
    have s2 : GateStep ((1 : Int), (1 : Nat)) (1 + 1, 1 + 1) :=
      GateStep.arriveBelowCap 1 1 (by rw [MAX_CONCURRENT_INFERENCES]; omega)
    have h1 : GateReachable ((1 : Int), (1 : Nat)) := by
      have := GateReachable.step GateReachable.init s1
      norm_num at this
      exact this
    have := GateReachable.step h1 s2
    norm_num at this
    exact this
  refine ⟨⟨(c2_concurrency_cap.1 2 2 hreach).2.1, (c2_concurrency_cap.1 2 2 hreach).2.2⟩,
    (c2_concurrency_cap.2.1 4 "req" (.ok "text") 0 (by rw [MAX_CONCURRENT_INFERENCES])).2.1,
    (c2_concurrency_cap.2.1 4 "req" (.ok "text") 0 (by rw [MAX_CONCURRENT_INFERENCES])).2.2.2,
    c2_concurrency_cap.2.2.1 3 "req" (.error "boom") 5
      (by rw [MAX_CONCURRENT_INFERENCES]; omega)⟩

/-! ### C1 — error absorption at dispatch -/

/-- A string with a non-empty prefix is non-empty. -/
lemma string_append_ne_empty (p s : String) (hp : p ≠ "") : p ++ s ≠ "" := by
  obtain ⟨pd⟩ := p
  obtain ⟨sd⟩ := s
  intro h
  apply hp
  have hd : pd ++ sd = ([] : List Char) := congrArg String.data h
  have hpd : pd = [] := by
    cases pd with
    | nil => rfl
    | cons c cs => simp at hd
  cases hpd
  rfl

/-- C1, counterexample: a code-generation dispatch routed to the remote API
whose transport reports an error re-raises that error as an exception to
the caller (`CodeGenerator.generateCode` ends with `throw error`), instead
of returning a terminal error Response — dispatch can throw. -/
theorem c1_counterexample :
    generateCode (some .api) "" "sk-test"
      { text := "", error := none }
      { text := "", error := some "Network error occurred" }
      (fun s => s) = .error "Network error occurred" := by
  rfl

/-- C1 (amended): `ChatService.processMessage` never throws — a thrown
underlying failure, or a returned response carrying a truthy error string,
is absorbed into a terminal Response with `finishReason = error` and a
non-empty human-readable message (carried in `generatedText`; the `error`
field of that terminal Response is left unset). `CodeGenerator.generateCode`,
by contrast, re-raises every failure to its caller: a configuration error
from `determineSource` propagates as an exception, and an error carried by
the selected transport response is converted into a thrown exception. -/
theorem c1_process_message_absorbs_generate_code_throws :
    (∀ (session : ChatSession) (useLocalModel : Bool) (now : Nat) (rid : String)
        (e : String),
      (processMessage session useLocalModel (.error e) now rid).finishReason
          = .error ∧
      (processMessage session useLocalModel (.error e) now rid).generatedText
          ≠ "") ∧
    (∀ (session : ChatSession) (useLocalModel : Bool) (now : Nat) (rid : String)
        (resp : ChatLLMResponse),
      resp.error.getD "" ≠ "" →
      (processMessage session useLocalModel (.ok resp) now rid).finishReason
          = .error ∧
      (processMessage session useLocalModel (.ok resp) now rid).generatedText
          ≠ "") ∧
    (∀ (session : ChatSession) (useLocalModel : Bool) (now : Nat) (rid : String)
        (resp : ChatLLMResponse),
      ¬ resp.error.getD "" ≠ "" →
      processMessage session useLocalModel (.ok resp) now rid = resp) ∧
    (∀ (requestedSource : Option CodeGenerationSource) (modelPath apiKey : String)
        (localResult apiResult : GenLLMResponse) (postProcess : String → String)
        (e : String),
      determineSource requestedSource modelPath apiKey = .error e →
      generateCode requestedSource modelPath apiKey localResult apiResult
        postProcess = .error e) ∧
    (∀ (requestedSource : Option CodeGenerationSource) (modelPath apiKey : String)
        (localResult apiResult : GenLLMResponse) (postProcess : String → String)
        (src : CodeGenerationSource),
      determineSource requestedSource modelPath apiKey = .ok src →
      ((if src = CodeGenerationSource.local then localResult else apiResult) :
        GenLLMResponse).error.getD "" ≠ "" →
      generateCode requestedSource modelPath apiKey localResult apiResult
        postProcess =
        .error ((if src = CodeGenerationSource.local then localResult
          else apiResult).error.getD "")) := by
  refine ⟨?_, ?_, ?_, ?_, ?_⟩
  · intro session useLocalModel now rid e
    refine ⟨rfl, ?_⟩
    exact string_append_ne_empty
      "I\x27m sorry, I encountered an error while processing your message: " e
      (by simp)
  · intro session useLocalModel now rid resp hresp
    rw [processMessage]
    dsimp only
    rw [if_pos hresp]
    refine ⟨rfl, ?_⟩
    exact string_append_ne_empty
      "I\x27m sorry, I encountered an error while processing your message: "
      (resp.error.getD "") (by simp)
  · intro session useLocalModel now rid resp hresp
    rw [processMessage]
    dsimp only
    rw [if_neg hresp]
  · intro requestedSource modelPath apiKey localResult apiResult postProcess e h
    rw [generateCode, h]
  · intro requestedSource modelPath apiKey localResult apiResult postProcess src h
    intro herr
    rw [generateCode, h]
    dsimp only
    rw [if_pos herr]

/-- C1, witness: a thrown transport failure is absorbed by
`processMessage` into a terminal error Response, at a concrete session. -/
theorem c1_witness :
    (processMessage
      { id := "s1", title := "t", messages := [], createdAt := 0, updatedAt := 0,
        systemMessage := none, metadata := [] }
      false (.error "socket hang up") 7 "r1").finishReason = .error ∧
    (processMessage
      { id := "s1", title := "t", messages := [], createdAt := 0, updatedAt := 0,
        systemMessage := none, metadata := [] }
      false (.error "socket hang up") 7 "r1").generatedText ≠ "" ∧
    generateCode none "" "" { text := "", error := none }
      { text := "", error := none } (fun s => s) =
      .error "No local model or API key configured for code generation" := by
  refine ⟨?_, ?_, ?_⟩
  · exact (c1_process_message_absorbs_generate_code_throws.1
      { id := "s1", title := "t", messages := [], createdAt := 0, updatedAt := 0,
        systemMessage := none, metadata := [] }
      false 7 "r1" "socket hang up").1
  · exact (c1_process_message_absorbs_generate_code_throws.1
      { id := "s1", title := "t", messages := [], createdAt := 0, updatedAt := 0,
        systemMessage := none, metadata := [] }
      false 7 "r1" "socket hang up").2
  · exact c1_process_message_absorbs_generate_code_throws.2.2.2.1
      none "" "" { text := "", error := none } { text := "", error := none }
      (fun s => s) "No local model or API key configured for code generation" rfl

/-! ### C9 — code extraction -/

/-- C9, counterexample: with no fenced block present and a text that does
not look like code, the extractor returns the text trimmed of surrounding
whitespace — not the text unchanged. -/
theorem c9_counterexample :
    extractCodeFromResponse (fun _ => false) "hello world " none
      = ("hello world", none) ∧
    "hello world" ≠ "hello world " := by
  refine ⟨rfl, by decide⟩

/-- C9 (amended): extraction scans for a fenced code block with an optional
language tag and extracts it when one is present — in particular, for the
text starting with a python fence around "def f():", both
`ResponsePostProcessor.extractCodeFromResponse` and
`ChatService.extractCodeFromMessage` yield the code with language `python`;
and when no closed fenced block is present the response extractor returns
the text trimmed of leading and trailing whitespace (whether or not the
looks-like-code heuristic fires — both branches return the trimmed text). -/
theorem c9_code_extraction (llc : String → Bool) :
    extractCodeFromResponse llc "```python\ndef f():\n    return 1\n```" none
      = ("def f():\n    return 1", some "python") ∧
    extractCodeFromMessage "```python\ndef f():\n    return 1\n```"
      = ("def f():\n    return 1", some "python") ∧
    (∀ (text : String) (defaultLanguage : Option String),
      findCodeBlock text = none →
      extractCodeFromResponse llc text defaultLanguage =
        (jsTrim text, defaultLanguage)) := by
  refine ⟨rfl, rfl, ?_⟩
  intro text defaultLanguage h
  unfold extractCodeFromResponse
  rw [h]
  dsimp only
  split <;> rfl

/-- C9, witness: a plain text with no fence passes through trimmed, with
the provided default language, regardless of the heuristic verdict. -/
theorem c9_code_extraction_witness :
    extractCodeFromResponse (fun _ => true) "x = 1" (some "python")
      = ("x = 1", some "python") := by
  exact (c9_code_extraction (fun _ => true)).2.2 "x = 1" (some "python") rfl

/-! ### C10 — model-loader failure cleanup -/

/-- C10: whenever `loadModel` fails (no model path, nonexistent path, or
insufficient resources) on a loader that was not already loading, the
resulting state holds no model: `isModelLoaded` is false,
`getModelMetadata` is `null`, the allocated resources are released, and the
`isLoading` guard is reset so a subsequent call is not blocked — while the
original error is re-raised to the caller (the `.error` result). -/
theorem c10_load_model_failure_cleanup (st : LoaderState) (mp : Option String)
    (env : LoadEnv) (e : String) (st2 : LoaderState)
    (hnl : st.isLoading = false)
    (h : loadModel st mp env = (.error e, st2)) :
    isModelLoaded st2 = false ∧ getModelMetadata st2 = none ∧
    st2.resourcesAllocated = false ∧ st2.isLoading = false := by
  rw [loadModel.eq_def, hnl] at h
  simp only [Bool.false_eq_true, if_false] at h
  split at h
  · rw [loadModelFail, Prod.mk.injEq] at h
    rw [← h.2]
    exact ⟨rfl, rfl, rfl, rfl⟩
  · split at h
    · rw [loadModelFail, Prod.mk.injEq] at h
      rw [← h.2]
      exact ⟨rfl, rfl, rfl, rfl⟩
    · split at h
      · rw [loadModelFail, Prod.mk.injEq] at h
        rw [← h.2]
        exact ⟨rfl, rfl, rfl, rfl⟩
      · rw [Prod.mk.injEq] at h
        exact absurd h.1 (by simp)

/-- C10, witness: a concrete failing load (no model path configured at all)
leaves a state with no model, no metadata, no allocation and a reset
loading guard. -/
theorem c10_load_model_failure_cleanup_witness :
    isModelLoaded ((loadModel
      { currentModel := none, modelPath := "", modelMetadata := none,
        isLoading := false, lastLoadTime := 0, resourcesAllocated := false }
      none
      { configModelPath := none, pathExists := false, resolvedPath := "",
        metadata := ⟨"m", "1", "t", "q", 0, 0, "f", 0⟩,
        resourceSufficient := true, resourceReason := "", now := 3 }).2)
      = false ∧
    ((loadModel
      { currentModel := none, modelPath := "", modelMetadata := none,
        isLoading := false, lastLoadTime := 0, resourcesAllocated := false }
      none
      { configModelPath := none, pathExists := false, resolvedPath := "",
        metadata := ⟨"m", "1", "t", "q", 0, 0, "f", 0⟩,
        resourceSufficient := true, resourceReason := "", now := 3 }).2).isLoading
      = false := by
  have h := c10_load_model_failure_cleanup
    { currentModel := none, modelPath := "", modelMetadata := none,
      isLoading := false, lastLoadTime := 0, resourcesAllocated := false }
    none
    { configModelPath := none, pathExists := false, resolvedPath := "",
      metadata := ⟨"m", "1", "t", "q", 0, 0, "f", 0⟩,
      resourceSufficient := true, resourceReason := "", now := 3 }
    "No model path specified" _ rfl rfl
  exact ⟨h.1, h.2.2.2⟩

/-! ### C8 — persistence round trip -/

/-- Membership of a key is membership in the key list. -/
lemma mapHas_iff_mem_keys (m : List (String × α)) (k : String) :
    mapHas m k = true ↔ k ∈ m.map (fun p => p.1) := by
  simp only [mapHas, List.any_eq_true, List.mem_map, decide_eq_true_eq]

/-- An absent key means no pair carries it. -/
lemma mapHas_eq_false_iff (m : List (String × α)) (k : String) :
    mapHas m k = false ↔ ∀ p ∈ m, p.1 ≠ k := by
  simp only [mapHas, List.any_eq_false, decide_eq_true_eq]

/-- Setting an absent key appends the pair. -/
lemma mapSet_not_has (m : List (String × α)) (k : String) (v : α)
    (h : mapHas m k = false) : mapSet m k v = m ++ [(k, v)] := by
  unfold mapSet
  unfold mapHas at h
  rw [h]
  simp

/-- Setting a present key keeps the key list unchanged. -/
lemma mapSet_has_keys (m : List (String × α)) (k : String) (v : α)
    (h : mapHas m k = true) :
    (mapSet m k v).map (fun p => p.1) = m.map (fun p => p.1) := by
  unfold mapSet
  rw [mapHas] at h
  rw [if_pos h, List.map_map]
  apply List.map_congr_left
  intro p hp
  by_cases hk : p.1 = k
  · simp [hk]
  · simp [hk]

/-- Every pair of an updated map is the new pair or an old pair. -/
lemma mem_mapSet (m : List (String × α)) (k : String) (v : α) (p : String × α)
    (h : p ∈ mapSet m k v) : p = (k, v) ∨ p ∈ m := by
  unfold mapSet at h
  split at h
  · obtain ⟨q, hq, hqe⟩ := List.mem_map.1 h
    by_cases hk : q.1 = k
    · left
      rw [← hqe]
      simp [hk]
    · right
      rw [← hqe]
      simp only [if_neg hk]
      exact hq
  · rcases List.mem_append.1 h with h | h
    · right
      exact h
    · left
      simpa using h

/-- An updated map always carries the written key. -/
lemma mapHas_mapSet_self (m : List (String × α)) (k : String) (v : α) :
    mapHas (mapSet m k v) k = true := by
  by_cases h : mapHas m k = true
  · rw [mapHas_iff_mem_keys, mapSet_has_keys m k v h, ← mapHas_iff_mem_keys]
    exact h
  · rw [mapSet_not_has m k v (by revert h; cases mapHas m k <;> simp)]
    rw [mapHas_iff_mem_keys]
    simp

/-- A found value is a pair of the map under its key. -/
lemma mapGet_mem (m : List (String × α)) (k : String) (v : α)
    (h : mapGet m k = some v) : (k, v) ∈ m := by
  unfold mapGet at h
  obtain ⟨p, hp, hpe⟩ := Option.map_eq_some.1 h
  have hk : p.1 = k := by
    have := List.find?_some hp
    simpa using this
  have hmem : p ∈ m := List.mem_of_find?_eq_some hp
  have : p = (k, v) := by
    obtain ⟨p1, p2⟩ := p
    simp only at hk hpe
    rw [hk, hpe]
  rw [← this]
  exact hmem

/-- A found key is present. -/
lemma mapGet_has (m : List (String × α)) (k : String) (v : α)
    (h : mapGet m k = some v) : mapHas m k = true := by
  rw [mapHas_iff_mem_keys]
  have := mapGet_mem m k v h
  exact List.mem_map.2 ⟨(k, v), this, rfl⟩

/-- The most recent session is an element of the list. -/
lemma mostRecent_mem (l : List ChatSession) (s : ChatSession)
    (h : mostRecent l = some s) : s ∈ l := by
  induction l with
  | nil => cases h
  | cons hd rest ih =>
    rw [mostRecent] at h
    cases hrest : mostRecent rest with
    | none =>
      simp only [hrest] at h
      have hs : hd = s := by injection h
      rw [← hs]
      exact List.mem_cons_self hd rest
    | some u =>
      simp only [hrest] at h
      by_cases hc : hd.updatedAt < u.updatedAt
      · rw [if_pos hc] at h
        have hu : u = s := by injection h
        exact List.mem_cons_of_mem hd (ih (hu ▸ hrest))
      · rw [if_neg hc] at h
        have hs : hd = s := by injection h
        rw [← hs]
        exact List.mem_cons_self hd rest

/-- The function `mostRecent` is `none` exactly on the empty list. -/
lemma mostRecent_eq_none_iff (l : List ChatSession) :
    mostRecent l = none ↔ l = [] := by
  constructor
  · intro h
    cases l with
    | nil => rfl
    | cons hd rest =>
      rw [mostRecent] at h
      cases hrest : mostRecent rest with
      | none =>
        simp only [hrest] at h
        cases h
      | some u =>
        simp only [hrest] at h
        by_cases hc : hd.updatedAt < u.updatedAt
        · rw [if_pos hc] at h
          cases h
        · rw [if_neg hc] at h
          cases h
  · intro h
    rw [h, mostRecent]

/-- The invariant of reachable controller states: every pair is keyed by
its session id with a non-empty key, the keys are distinct, and the active
pointer is unset exactly when the store is empty and otherwise names a
present session. -/
def StoreInv (st : ControllerState) : Prop :=
  (∀ p ∈ st.sessions, p.1 = p.2.id ∧ p.1 ≠ "") ∧
  (st.sessions.map (fun p => p.1)).Nodup ∧
  (match st.activeSession with
   | none => st.sessions = []
   | some a => mapHas st.sessions a = true)

/-- The update transform does not change the session id. -/
lemma applySessionUpdate_id (session : ChatSession) (title : Option String)
    (systemMessage : Option String) (metadata : Option (List (String × String)))
    (now : Nat) (msgId : String) :
    (applySessionUpdate session title systemMessage metadata now msgId).id
      = session.id := by
  unfold applySessionUpdate
  cases systemMessage <;> cases metadata <;> dsimp only <;> split_ifs <;> rfl

/-- A pair member makes its key present. -/
lemma mapHas_of_mem (m : List (String × α)) (p : String × α) (hp : p ∈ m) :
    mapHas m p.1 = true := by
  simp only [mapHas, List.any_eq_true, decide_eq_true_eq]
  exact ⟨p, hp, rfl⟩

/-- Deleting one key keeps every other present key present. -/
lemma mapHas_delete_of_ne (m : List (String × α)) (sid a : String)
    (hne : a ≠ sid) (h : mapHas m a = true) :
    mapHas (mapDelete m sid) a = true := by
  simp only [mapHas, List.any_eq_true, decide_eq_true_eq] at h ⊢
  obtain ⟨p, hp, hpa⟩ := h
  refine ⟨p, List.mem_filter.2 ⟨hp, ?_⟩, hpa⟩
  simp [hpa, hne]

/-- Overwriting the session stored under a present key preserves the store
invariant, provided the new session keeps the old id. -/
lemma storeInv_mapSet_existing (st : ControllerState) (inv : StoreInv st)
    (sessionId : String) (session newSession : ChatSession)
    (hget : mapGet st.sessions sessionId = some session)
    (hidp : newSession.id = session.id) :
    StoreInv { st with sessions := mapSet st.sessions sessionId newSession } := by
  obtain ⟨hid, hnd, hact⟩ := inv
  have hmem := mapGet_mem _ _ _ hget
  have hhas := mapGet_has _ _ _ hget
  have hkid : sessionId = session.id := (hid _ hmem).1
  have hkne : sessionId ≠ "" := (hid _ hmem).2
  refine ⟨?_, ?_, ?_⟩
  · intro p hp
    rcases mem_mapSet _ _ _ p hp with he | hm
    · rw [he]
      refine ⟨?_, hkne⟩
      rw [hidp]
      exact hkid
    · exact hid p hm
  · rw [mapSet_has_keys _ _ _ hhas]
    exact hnd
  · dsimp only
    cases hA : st.activeSession with
    | none =>
      simp only [hA] at hact
      rw [hact] at hmem
      cases hmem
    | some a =>
      simp only [hA] at hact
      show mapHas (mapSet st.sessions sessionId newSession) a = true
      rw [mapHas_iff_mem_keys, mapSet_has_keys _ _ _ hhas, ← mapHas_iff_mem_keys]
      exact hact

/-- Every reachable controller state satisfies the store invariant. -/
lemma reachable_inv (st : ControllerState) (h : Reachable st) : StoreInv st := by
  induction h with
  | init =>
    refine ⟨?_, ?_, ?_⟩
    · intro p hp
      cases hp
    · simp [initialState]
    · simp [initialState]
  | create sessionId now title sysMsg msgId hr hfresh hne ih =>
    rename_i st
    obtain ⟨hid, hnd, hact⟩ := ih
    unfold createSession
    dsimp only
    refine ⟨?_, ?_, ?_⟩
    · intro p hp
      rcases mem_mapSet _ _ _ p hp with he | hm
      · rw [he]
        exact ⟨rfl, hne⟩
      · exact hid p hm
    · rw [mapSet_not_has _ _ _ hfresh]
      simp only [List.map_append, List.map_cons, List.map_nil]
      rw [List.nodup_append]
      refine ⟨hnd, by simp, ?_⟩
      intro a ha hb
      simp only [List.mem_singleton] at hb
      subst hb
      have hhas : mapHas st.sessions a = true := by
        rw [mapHas_iff_mem_keys]
        exact ha
      rw [hfresh] at hhas
      cases hhas
    · exact mapHas_mapSet_self _ _ _
  | addMsg sessionId msgId now content hr heq ih =>
    unfold addUserMessage at heq
    split at heq
    · cases heq
    · rename_i session hget
      injection heq with heq
      subst heq
      exact storeInv_mapSet_existing _ ih sessionId session _ hget rfl
  | setActive sessionId hr heq ih =>
    obtain ⟨hid, hnd, hact⟩ := ih
    unfold setActiveSession at heq
    split at heq
    · rename_i hc
      injection heq with heq
      subst heq
      exact ⟨hid, hnd, hc⟩
    · cases heq
  | update sessionId title systemMessage metadata now msgId hr heq ih =>
    unfold updateSession at heq
    split at heq
    · cases heq
    · rename_i session hget
      injection heq with heq
      subst heq
      exact storeInv_mapSet_existing _ ih sessionId session _ hget
        (applySessionUpdate_id session title systemMessage metadata now msgId)
  | delete sessionId hr heq ih =>
    rename_i st st'
    obtain ⟨hid, hnd, hact⟩ := ih
    unfold deleteSession at heq
    split at heq
    · rename_i hc
      injection heq with heq
      subst heq
      refine ⟨?_, ?_, ?_⟩
      · intro p hp
        exact hid p (List.mem_filter.1 hp).1
      · exact List.Nodup.sublist
          (List.Sublist.map (fun p => p.1) (List.filter_sublist st.sessions)) hnd
      · dsimp only
        cases hA : st.activeSession with
        | none =>
          rw [if_neg (by simp)]
          simp only [hA] at hact
          show mapDelete st.sessions sessionId = []
          rw [hact]
          rfl
        | some a =>
          by_cases heqa : a = sessionId
          · subst heqa
            rw [if_pos rfl]
            cases hmr : mostRecent (mapValues (mapDelete st.sessions a)) with
            | none =>
              simp only [hmr]
              have hvals : mapValues (mapDelete st.sessions a) = [] :=
                (mostRecent_eq_none_iff _).1 hmr
              show mapDelete st.sessions a = []
              exact List.map_eq_nil_iff.1 hvals
            | some s =>
              simp only [hmr]
              have hsmem : s ∈ mapValues (mapDelete st.sessions a) :=
                mostRecent_mem _ _ hmr
              obtain ⟨p, hp, hps⟩ := List.mem_map.1 hsmem
              have hpm : p ∈ st.sessions := (List.mem_filter.1 hp).1
              have hpid : p.1 = s.id := by rw [(hid p hpm).1, hps]
              show mapHas (mapDelete st.sessions a) s.id = true
              rw [← hpid]
              exact mapHas_of_mem _ p hp
          · rw [if_neg (by simpa using heqa)]
            simp only [hA] at hact
            show mapHas (mapDelete st.sessions sessionId) a = true
            exact mapHas_delete_of_ne _ _ _ heqa hact
    · cases heq
  | clear sessionId now hr heq ih =>
    unfold clearSessionHistory at heq
    split at heq
    · cases heq
    · rename_i session hget
      injection heq with heq
      subst heq
      exact storeInv_mapSet_existing _ ih sessionId session _ hget rfl

/-- Re-inserting a list of sessions keyed by their own ids into a map whose
keys are disjoint from them reproduces the list, in order. -/
lemma rebuild_aux (m : List (String × ChatSession)) :
    ∀ acc, (∀ p ∈ m, p.1 = p.2.id) →
      (∀ p ∈ m, mapHas acc p.1 = false) →
      (m.map (fun p => p.1)).Nodup →
      m.foldl (fun a p => mapSet a p.2.id p.2) acc = acc ++ m := by
  induction m with
  | nil =>
    intro acc _ _ _
    simp
  | cons q m ih =>
    intro acc hid hdis hnd
    simp only [List.foldl_cons]
    have hq : q.2.id = q.1 := (hid q (List.mem_cons_self q m)).symm
    rw [hq, mapSet_not_has acc q.1 q.2 (hdis q (List.mem_cons_self q m))]
    have hdis2 : ∀ p ∈ m, mapHas (acc ++ [(q.1, q.2)]) p.1 = false := by
      intro p hp
      rw [mapHas_eq_false_iff]
      intro r hr
      rcases List.mem_append.1 hr with h1 | h2
      · exact (mapHas_eq_false_iff _ _).1
          (hdis p (List.mem_cons_of_mem _ hp)) r h1
      · simp only [List.mem_singleton] at h2
        subst h2
        have hnotin : q.1 ∉ m.map (fun p => p.1) := by
          simp only [List.map_cons, List.nodup_cons] at hnd
          exact hnd.1
        intro hqp
        apply hnotin
        simp only at hqp
        rw [hqp]
        exact List.mem_map.2 ⟨p, hp, rfl⟩
    have hnd2 : (m.map (fun p => p.1)).Nodup := by
      simp only [List.map_cons, List.nodup_cons] at hnd
      exact hnd.2
    rw [ih (acc ++ [(q.1, q.2)]) (fun p hp => hid p (List.mem_cons_of_mem _ hp))
      hdis2 hnd2]
    simp

/-- C8: persisting the store with `saveSessions` and reloading with
`loadSessions` into a fresh store yields the identical session map and the
same active-session pointer, for every reachable store state. -/
theorem c8_save_load_roundtrip (st : ControllerState) (h : Reachable st) :
    loadSessions (saveSessions st emptyGlobal) = st := by
  obtain ⟨hid, hnd, hact⟩ := reachable_inv st h
  have hsess : List.foldl (fun acc p => mapSet acc p.2.id p.2) [] st.sessions
      = st.sessions := by
    have hr := rebuild_aux st.sessions [] (fun p hp => (hid p hp).1)
      (fun p hp => rfl) hnd
    simpa using hr
  unfold loadSessions saveSessions emptyGlobal
  dsimp only
  cases hA : st.activeSession with
  | none =>
    simp only [hA] at hact
    dsimp only
    rw [hsess]
    have hmr : mostRecent (mapValues st.sessions) = none := by
      rw [hact]
      rfl
    rw [hmr]
    have heta : ControllerState.mk st.sessions st.activeSession = st := rfl
    rw [hA] at heta
    exact heta
  | some a =>
    simp only [hA] at hact
    have hact2 := hact
    simp only [mapHas, List.any_eq_true, decide_eq_true_eq] at hact2
    obtain ⟨p, hp, hpa⟩ := hact2
    have ha : a ≠ "" := hpa ▸ (hid p hp).2
    dsimp only
    rw [if_pos ha]
    dsimp only
    rw [hsess, if_pos (And.intro ha hact)]
    have heta : ControllerState.mk st.sessions st.activeSession = st := rfl
    rw [hA] at heta
    exact heta

/-- C8, witness: the concrete store holding one freshly created session
(with a title and a system message) round-trips exactly through
`saveSessions` and `loadSessions`. -/
theorem c8_save_load_roundtrip_witness :
    loadSessions (saveSessions
      (createSession initialState "s1" 5 (some "First") (some "be nice") "m1")
      emptyGlobal)
      = createSession initialState "s1" 5 (some "First") (some "be nice") "m1" := by
  exact c8_save_load_roundtrip _
    (Reachable.create "s1" 5 (some "First") (some "be nice") "m1"
      Reachable.init rfl (by decide))

end Cipher
